import Mathlib

set_option maxRecDepth 100000

/-!
Verification of the Songbird checkpoint management core
(`songbird-core/checkpoint_manager.py`).

The development embeds, as executable Lean definitions:
  * the task-identity scheme (MD5 of the `|`-joined composite key,
    truncated to 12 hex characters),
  * the `RecordingTask` record and `TaskStatus` enumeration,
  * the in-memory task registry of `CheckpointManager` (an
    insertion-ordered association list keyed by task id, mirroring a
    Python dict) together with its mutating operations,
  * checkpoint serialization/deserialization at the level of the task
    array, and
  * the two-step atomic-save sequence (write temp file, replace target)
    as a small file-system step machine.
-/

/-! ## MD5 (RFC 1321), over byte lists, words as `Nat` mod 2^32 -/

/-- Left-rotate a 32-bit word (represented as `Nat`) by `n` bits. -/
def leftrotate (x n : Nat) : Nat :=
  Nat.lor (((x % 4294967296) <<< n) % 4294967296) ((x % 4294967296) >>> (32 - n))

/-- The 64 MD5 sine-derived constants `K[i] = floor(2^32 * |sin(i+1)|)`. -/
def md5K : List Nat :=
  [0xd76aa478, 0xe8c7b756, 0x242070db, 0xc1bdceee,
   0xf57c0faf, 0x4787c62a, 0xa8304613, 0xfd469501,
   0x698098d8, 0x8b44f7af, 0xffff5bb1, 0x895cd7be,
   0x6b901122, 0xfd987193, 0xa679438e, 0x49b40821,
   0xf61e2562, 0xc040b340, 0x265e5a51, 0xe9b6c7aa,
   0xd62f105d, 0x02441453, 0xd8a1e681, 0xe7d3fbc8,
   0x21e1cde6, 0xc33707d6, 0xf4d50d87, 0x455a14ed,
   0xa9e3e905, 0xfcefa3f8, 0x676f02d9, 0x8d2a4c8a,
   0xfffa3942, 0x8771f681, 0x6d9d6122, 0xfde5380c,
   0xa4beea44, 0x4bdecfa9, 0xf6bb4b60, 0xbebfbc70,
   0x289b7ec6, 0xeaa127fa, 0xd4ef3085, 0x04881d05,
   0xd9d4d039, 0xe6db99e5, 0x1fa27cf8, 0xc4ac5665,
   0xf4292244, 0x432aff97, 0xab9423a7, 0xfc93a039,
   0x655b59c3, 0x8f0ccc92, 0xffeff47d, 0x85845dd1,
   0x6fa87e4f, 0xfe2ce6e0, 0xa3014314, 0x4e0811a1,
   0xf7537e82, 0xbd3af235, 0x2ad7d2bb, 0xeb86d391]

/-- The per-round left-rotation amounts. -/
def md5S : List Nat :=
  [7, 12, 17, 22, 7, 12, 17, 22, 7, 12, 17, 22, 7, 12, 17, 22,
   5, 9, 14, 20, 5, 9, 14, 20, 5, 9, 14, 20, 5, 9, 14, 20,
   4, 11, 16, 23, 4, 11, 16, 23, 4, 11, 16, 23, 4, 11, 16, 23,
   6, 10, 15, 21, 6, 10, 15, 21, 6, 10, 15, 21, 6, 10, 15, 21]

/-- Round function of MD5: one of F, G, H, I depending on the round index. -/
def md5F (i b c d : Nat) : Nat :=
  if i < 16 then Nat.lor (Nat.land b c) (Nat.land (Nat.xor b 0xffffffff) d)
  else if i < 32 then Nat.lor (Nat.land d b) (Nat.land (Nat.xor d 0xffffffff) c)
  else if i < 48 then Nat.xor (Nat.xor b c) d
  else Nat.xor c (Nat.lor b (Nat.xor d 0xffffffff))

/-- Message-word index used at round `i`. -/
def md5G (i : Nat) : Nat :=
  if i < 16 then i
  else if i < 32 then (5 * i + 1) % 16
  else if i < 48 then (3 * i + 5) % 16
  else (7 * i) % 16

/-- One of the 64 rounds of the MD5 compression function. -/
def md5Step (M : List Nat) (st : Nat × Nat × Nat × Nat) (i : Nat) :
    Nat × Nat × Nat × Nat :=
  let a := st.1
  let b := st.2.1
  let c := st.2.2.1
  let d := st.2.2.2
  let f := (md5F i b c d + a + md5K.getD i 0 + M.getD (md5G i) 0) % 4294967296
  (d, (b + leftrotate f (md5S.getD i 0)) % 4294967296, b, c)

/-- Decode a 64-byte chunk into 16 little-endian 32-bit words. -/
def chunkWords (chunk : List Nat) : List Nat :=
  (List.range 16).map (fun j =>
    chunk.getD (4 * j) 0 + 256 * chunk.getD (4 * j + 1) 0 +
    65536 * chunk.getD (4 * j + 2) 0 + 16777216 * chunk.getD (4 * j + 3) 0)

/-- Process one 64-byte chunk, updating the 4-word state. -/
def md5Chunk (h : Nat × Nat × Nat × Nat) (chunk : List Nat) :
    Nat × Nat × Nat × Nat :=
  let M := chunkWords chunk
  let r := (List.range 64).foldl (md5Step M) h
  ((h.1 + r.1) % 4294967296, (h.2.1 + r.2.1) % 4294967296,
   (h.2.2.1 + r.2.2.1) % 4294967296, (h.2.2.2 + r.2.2.2) % 4294967296)

/-- Split a byte list into 64-byte chunks (fuel-driven, structurally
recursive so that kernel reduction works; the fuel `l.length` always
suffices). -/
def toChunksAux : Nat → List Nat → List (List Nat)
  | 0, _ => []
  | _, [] => []
  | fuel + 1, l => l.take 64 :: toChunksAux fuel (l.drop 64)

/-- Split a byte list into 64-byte chunks. -/
def toChunks (l : List Nat) : List (List Nat) :=
  toChunksAux l.length l

/-- MD5 padding: append `0x80`, zero bytes up to 56 mod 64, then the
64-bit little-endian bit length. -/
def md5Pad (msg : List Nat) : List Nat :=
  msg ++ 0x80 :: (List.replicate ((119 - msg.length % 64) % 64) 0 ++
    (List.range 8).map (fun i => (msg.length * 8) / 256 ^ i % 256))

/-- Serialize a 32-bit word to 4 little-endian bytes. -/
def wordBytes (w : Nat) : List Nat :=
  [w % 256, w / 256 % 256, w / 65536 % 256, w / 16777216 % 256]

/-- The 16-byte MD5 digest of a byte list. -/
def md5Bytes (msg : List Nat) : List Nat :=
  let h := (toChunks (md5Pad msg)).foldl md5Chunk
    (0x67452301, 0xefcdab89, 0x98badcfe, 0x10325476)
  wordBytes h.1 ++ wordBytes h.2.1 ++ wordBytes h.2.2.1 ++ wordBytes h.2.2.2

/-- UTF-8 encoding of one character, as the Python `str.encode()` does. -/
def utf8Bytes (c : Char) : List Nat :=
  let n := c.toNat
  if n < 128 then [n]
  else if n < 2048 then [192 + n / 64, 128 + n % 64]
  else if n < 65536 then [224 + n / 4096, 128 + n / 64 % 64, 128 + n % 64]
  else [240 + n / 262144, 128 + n / 4096 % 64, 128 + n / 64 % 64, 128 + n % 64]

/-- UTF-8 encoding of a string. -/
def strBytes (s : String) : List Nat :=
  (s.data.map utf8Bytes).flatten

/-- The sixteen lowercase hexadecimal digit characters, `0`–`9` then
`a`–`f` (ASCII codes 48–57 and 97–102). -/
def hexChars : List Char :=
  (List.range 16).map fun n =>
    if n < 10 then Char.ofNat (48 + n) else Char.ofNat (87 + n)

/-- Two lowercase hex characters for one byte. -/
def byteHexChars (b : Nat) : List Char :=
  [hexChars.getD (b / 16 % 16) '0', hexChars.getD (b % 16) '0']

/-- The 32 characters of `hashlib.md5(s.encode()).hexdigest()`. -/
def md5HexCharsOf (s : String) : List Char :=
  ((md5Bytes (strBytes s)).map byteHexChars).flatten

/-- `hashlib.md5(s.encode()).hexdigest()` as a string. -/
def md5Hexdigest (s : String) : String :=
  String.mk (md5HexCharsOf s)

/-! ## Task identity

`RecordingTask.task_id` in the source:
`hashlib.md5(f"{speaker}|{mode_name}|{source_filename}".encode()).hexdigest()[:12]`.
-/

/-- The composite-key string `speaker|mode_name|source_filename`. -/
def taskString (speaker mode_name source_filename : String) : String :=
  speaker ++ "|" ++ mode_name ++ "|" ++ source_filename

/-- The 12 characters of the truncated hex digest of the composite key. -/
def taskIdChars (speaker mode_name source_filename : String) : List Char :=
  (md5HexCharsOf (taskString speaker mode_name source_filename)).take 12

/-- The task identifier derived from the composite key. -/
def taskIdOf (speaker mode_name source_filename : String) : String :=
  String.mk (taskIdChars speaker mode_name source_filename)

/-! ## Task records and statuses -/

/-- The `TaskStatus` enumeration of the source. -/
inductive TaskStatus where
  | pending
  | completed
  | failed
  | skipped
  | inProgress
deriving DecidableEq

/-- The string value backing each `TaskStatus` member. -/
def TaskStatus.value : TaskStatus → String
  | .pending => "PENDING"
  | .completed => "COMPLETED"
  | .failed => "FAILED"
  | .skipped => "SKIPPED"
  | .inProgress => "IN_PROGRESS"

/-- `TaskStatus(s)`: the member whose value is `s`, or `none`
(Python raises `ValueError`, caught by `load_checkpoint`). -/
def TaskStatus.ofValue? : String → Option TaskStatus
  | "PENDING" => some .pending
  | "COMPLETED" => some .completed
  | "FAILED" => some .failed
  | "SKIPPED" => some .skipped
  | "IN_PROGRESS" => some .inProgress
  | _ => none

/-- The `RecordingTask` dataclass.  `timestamp` is a plain string because
`__post_init__` always fills it in; `validation_result` (an opaque JSON
dict in the source) is modelled as an association list of strings. -/
structure RecordingTask where
  speaker : String
  mode_name : String
  source_filename : String
  output_path : String
  status : TaskStatus
  timestamp : String
  error_message : Option String
  validation_result : Option (List (String × String))
deriving DecidableEq

/-- The derived `task_id` property of a record. -/
def RecordingTask.task_id (t : RecordingTask) : String :=
  taskIdOf t.speaker t.mode_name t.source_filename

/-- The record built by `RecordingTask(...)` at registration time:
status `PENDING`, timestamp `now` (from `__post_init__`), no error
message, no validation result. -/
def mkTask (now speaker mode_name source_filename output_path : String) :
    RecordingTask :=
  { speaker := speaker, mode_name := mode_name,
    source_filename := source_filename, output_path := output_path,
    status := TaskStatus.pending, timestamp := now,
    error_message := none, validation_result := none }

/-! ## The in-memory registry (a Python dict keyed by task id)

Modelled as an insertion-ordered association list: assignment to an
existing key updates in place, assignment to a fresh key appends.
-/

/-- `task_id in self.tasks`. -/
def dictMem (k : String) (l : List (String × RecordingTask)) : Bool :=
  l.any (fun p => p.1 == k)

/-- `self.tasks[task_id] = task`: replace in place, or append. -/
def dictInsert (k : String) (v : RecordingTask)
    (l : List (String × RecordingTask)) : List (String × RecordingTask) :=
  if dictMem k l then l.map (fun p => if p.1 == k then (k, v) else p)
  else l ++ [(k, v)]

/-- `self.tasks.get(task_id)` / `self.tasks[task_id]`. -/
def dictGet? (k : String) (l : List (String × RecordingTask)) :
    Option RecordingTask :=
  (l.find? (fun p => p.1 == k)).map Prod.snd

/-- The in-memory state of a `CheckpointManager`: its task registry.
(Session metadata does not enter any claim and is omitted.) -/
structure CheckpointManager where
  tasks : List (String × RecordingTask)
deriving DecidableEq

/-! ## Registry operations -/

/-- `register_task`: build a fresh PENDING record, insert it at its
task id, return the new state and the id.  (The `save_checkpoint()`
call does not touch the registry; its outcome is modelled separately.) -/
def register_task (now speaker mode_name source_filename output_path : String)
    (m : CheckpointManager) : CheckpointManager × String :=
  let task := mkTask now speaker mode_name source_filename output_path
  (⟨dictInsert task.task_id task m.tasks⟩, task.task_id)

/-- Python truthiness of an optional string (`if error_message:`). -/
def truthyStr : Option String → Bool
  | none => false
  | some s => !(s == "")

/-- Python truthiness of an optional dict (`if validation_result:`). -/
def truthyDict : Option (List (String × String)) → Bool
  | none => false
  | some l => !l.isEmpty

/-- `update_task_status`: returns `false` when the id is unknown;
otherwise sets status and timestamp, overwrites `error_message` /
`validation_result` only when the argument is truthy, and returns
`true`. -/
def update_task_status (now task_id : String) (status : TaskStatus)
    (error_message : Option String)
    (validation_result : Option (List (String × String)))
    (m : CheckpointManager) : CheckpointManager × Bool :=
  match dictGet? task_id m.tasks with
  | none => (m, false)
  | some task =>
    let task' : RecordingTask :=
      { task with
        status := status, timestamp := now,
        error_message :=
          if truthyStr error_message then error_message else task.error_message,
        validation_result :=
          if truthyDict validation_result then validation_result
          else task.validation_result }
    (⟨dictInsert task_id task' m.tasks⟩, true)

/-- `is_task_completed`: recompute the id and test for a COMPLETED
record. -/
def is_task_completed (m : CheckpointManager)
    (speaker mode_name source_filename : String) : Bool :=
  match dictGet? (taskIdOf speaker mode_name source_filename) m.tasks with
  | some task => task.status == TaskStatus.completed
  | none => false

/-- `reset_failed_tasks`: set every FAILED record to PENDING, clearing
its error message; return the new state and the reset count. -/
def reset_failed_tasks (m : CheckpointManager) : CheckpointManager × Nat :=
  (⟨m.tasks.map (fun p =>
      if p.2.status = TaskStatus.failed then
        (p.1, { p.2 with status := TaskStatus.pending, error_message := none })
      else p)⟩,
   (m.tasks.filter (fun p => p.2.status == TaskStatus.failed)).length)

/-! ## Reachable registry states -/

/-- One public mutating operation of the manager. -/
inductive Op where
  | register (now speaker mode_name source_filename output_path : String)
  | update (now task_id : String) (status : TaskStatus)
      (error_message : Option String)
      (validation_result : Option (List (String × String)))
  | reset
deriving DecidableEq

/-- Apply one operation to the registry state. -/
def applyOp (m : CheckpointManager) : Op → CheckpointManager
  | .register now s v f o => (register_task now s v f o m).1
  | .update now tid st em vr => (update_task_status now tid st em vr m).1
  | .reset => (reset_failed_tasks m).1

/-- The registry state after a sequence of operations from a fresh
(empty) manager. -/
def runOps (ops : List Op) : CheckpointManager :=
  ops.foldl applyOp ⟨[]⟩

/-! ## Checkpoint serialization (the `tasks` array of the JSON file)

One entry of the `tasks` array, as `load_checkpoint` sees it: required
keys may be missing (`task_data['speaker']` raises `KeyError`), the
status string may be invalid (`TaskStatus(...)` raises `ValueError`),
optional keys are read with `.get`.
-/

/-- A raw (unvalidated) task entry of a checkpoint file. -/
structure RawTaskData where
  speaker : Option String := none
  mode_name : Option String := none
  source_filename : Option String := none
  output_path : Option String := none
  status : Option String := none
  timestamp : Option String := none
  error_message : Option String := none
  validation_result : Option (List (String × String)) := none
deriving DecidableEq

/-- Parse one raw entry into a `RecordingTask`; `none` models the
`KeyError`/`ValueError` that `load_checkpoint` catches.  A missing
timestamp is replaced by `now` (`__post_init__`). -/
def parseTask (now : String) (r : RawTaskData) : Option RecordingTask :=
  match r.speaker, r.mode_name, r.source_filename, r.output_path, r.status with
  | some s, some mn, some sf, some op, some stv =>
    match TaskStatus.ofValue? stv with
    | some st =>
      some { speaker := s, mode_name := mn, source_filename := sf,
             output_path := op, status := st,
             timestamp := r.timestamp.getD now,
             error_message := r.error_message,
             validation_result := r.validation_result }
    | none => none
  | _, _, _, _, _ => none

/-- The task-loading loop of `load_checkpoint`: insert each parsed
record at its recomputed `task_id`; on the first malformed entry stop,
keeping the records inserted so far, and report `false` (the warning
path).  `true` means every entry parsed. -/
def loadTasksLoop (now : String) :
    List RawTaskData → List (String × RecordingTask) →
    List (String × RecordingTask) × Bool
  | [], acc => (acc, true)
  | r :: rs, acc =>
    match parseTask now r with
    | some t => loadTasksLoop now rs (dictInsert t.task_id t acc)
    | none => (acc, false)

/-- `load_checkpoint` on the `tasks` array of a parsed checkpoint file,
starting from the empty registry of a fresh manager. -/
def load_checkpoint (now : String) (raws : List RawTaskData) :
    CheckpointManager × Bool :=
  ((⟨(loadTasksLoop now raws []).1⟩ : CheckpointManager),
   (loadTasksLoop now raws []).2)

/-- Serialization of one record into a checkpoint-file entry
(`asdict(task)` with the status replaced by its string value). -/
def rawOfTask (t : RecordingTask) : RawTaskData :=
  { speaker := some t.speaker, mode_name := some t.mode_name,
    source_filename := some t.source_filename,
    output_path := some t.output_path,
    status := some t.status.value, timestamp := some t.timestamp,
    error_message := t.error_message,
    validation_result := t.validation_result }

/-- The `tasks` array written by `save_checkpoint`
(`[asdict(task) for task in self.tasks.values()]`). -/
def saveTasks (m : CheckpointManager) : List RawTaskData :=
  m.tasks.map (fun p => rawOfTask p.2)

/-! ## Save outcomes (C5): what each mutator returns when the
`save_checkpoint()` I/O succeeds or fails

`saveOk` stands for the success of the file write; the extra `Bool`
in each result records whether an "Error saving checkpoint" line was
printed to stderr.  The source discards `save_checkpoint`'s return
value in every mutator.
-/

/-- `save_checkpoint` alone: returns its success flag and logs exactly
on failure. -/
def save_checkpoint (saveOk : Bool) : Bool × Bool :=
  (saveOk, !saveOk)

/-- `register_task` with the save outcome made explicit: result is
(new state, returned task id, logged-error flag). -/
def register_task_saving (saveOk : Bool)
    (now speaker mode_name source_filename output_path : String)
    (m : CheckpointManager) : CheckpointManager × String × Bool :=
  let r := register_task now speaker mode_name source_filename output_path m
  (r.1, r.2, (save_checkpoint saveOk).2)

/-- `update_task_status` with the save outcome made explicit: result is
(new state, returned boolean, logged-error flag).  No save is attempted
when the id is unknown. -/
def update_task_status_saving (saveOk : Bool) (now task_id : String)
    (status : TaskStatus) (error_message : Option String)
    (validation_result : Option (List (String × String)))
    (m : CheckpointManager) : CheckpointManager × Bool × Bool :=
  match dictGet? task_id m.tasks with
  | none => (m, false, false)
  | some _ =>
    let r := update_task_status now task_id status error_message
      validation_result m
    (r.1, true, (save_checkpoint saveOk).2)

/-- `reset_failed_tasks` with the save outcome made explicit: result is
(new state, returned count, logged-error flag).  A save is attempted
only when at least one record was reset. -/
def reset_failed_tasks_saving (saveOk : Bool) (m : CheckpointManager) :
    CheckpointManager × Nat × Bool :=
  let r := reset_failed_tasks m
  (r.1, r.2, if r.2 > 0 then (save_checkpoint saveOk).2 else false)

/-! ## The atomic save sequence (C1)

`save_checkpoint` writes the serialized checkpoint to
`checkpoint_file.with_suffix('.tmp')` in the same directory and then
calls `temp_file.replace(self.checkpoint_file)`.  The claim models this
as a step sequence over a tiny file system: open/truncate the temp
file, append its bytes one at a time, then atomically replace the
target with it.
-/

/-- The two files involved in a save, each `none` when absent. -/
structure FS where
  target : Option (List Nat)
  temp : Option (List Nat)
deriving DecidableEq

/-- One elementary step of the save sequence. -/
inductive SaveStep where
  | openTemp
  | writeTempByte (b : Nat)
  | replaceTarget
deriving DecidableEq

/-- Effect of one step on the file system. -/
def applyStep (fs : FS) : SaveStep → FS
  | .openTemp => { fs with temp := some [] }
  | .writeTempByte b => { fs with temp := fs.temp.map (fun l => l ++ [b]) }
  | .replaceTarget => { target := fs.temp, temp := none }

/-- Run a list of steps. -/
def runSteps (fs : FS) (steps : List SaveStep) : FS :=
  steps.foldl applyStep fs

/-- The step sequence of one `save_checkpoint` writing `content`:
write the full content to the temp file, then one final atomic
replace. -/
def saveSteps (content : List Nat) : List SaveStep :=
  (SaveStep.openTemp :: content.map SaveStep.writeTempByte) ++
    [SaveStep.replaceTarget]

/-! ## Concrete inputs used by counterexamples and witnesses -/

/-- A complete, well-formed checkpoint-file task entry. -/
def goodRaw : RawTaskData :=
  { speaker := some "a"
    mode_name := some "b"
    source_filename := some "c"
    output_path := some "o"
    status := some "COMPLETED"
    timestamp := some "t0"
    error_message := none
    validation_result := none }

/-- A malformed entry: the required `speaker` field is missing. -/
def badRaw : RawTaskData :=
  { status := some "COMPLETED" }

/-- Register a task, fail it with an error message, then complete it
without one. -/
def c9ops : List Op :=
  [Op.register "t0" "a" "b" "c" "o",
   Op.update "t1" (taskIdOf "a" "b" "c") TaskStatus.failed (some "boom") none,
   Op.update "t2" (taskIdOf "a" "b" "c") TaskStatus.completed none none]

/-- Register a task and complete it, passing no error message. -/
def c9wops : List Op :=
  [Op.register "t0" "a" "b" "c" "o",
   Op.update "t1" (taskIdOf "a" "b" "c") TaskStatus.completed none none]

/-- A failed record carrying an error message and a validation result. -/
def c10task : RecordingTask :=
  { speaker := "a"
    mode_name := "b"
    source_filename := "c"
    output_path := "o"
    status := TaskStatus.failed
    timestamp := "t0"
    error_message := some "x"
    validation_result := some [("k", "v")] }

/-- A registry holding exactly `c10task` under its task id. -/
def c10state : CheckpointManager :=
  ⟨[(taskIdOf "a" "b" "c", c10task)]⟩

/-! ## Lemmas about the dict model -/

theorem mem_dictInsert {k : String} {v : RecordingTask}
    {l : List (String × RecordingTask)} {p : String × RecordingTask}
    (h : p ∈ dictInsert k v l) : p ∈ l ∨ p = (k, v) := by
  unfold dictInsert at h
  split at h
  · rcases List.mem_map.mp h with ⟨q, hq, hfq⟩
    by_cases hqk : q.1 = k
    · simp [hqk] at hfq
      exact Or.inr hfq.symm
    · simp [hqk] at hfq
      exact Or.inl (hfq ▸ hq)
  · rcases List.mem_append.mp h with h' | h'
    · exact Or.inl h'
    · exact Or.inr (List.mem_singleton.mp h')

theorem dictGet?_eq_none_of_not_mem {k : String}
    {l : List (String × RecordingTask)} (h : dictMem k l = false) :
    dictGet? k l = none := by
  unfold dictMem at h
  unfold dictGet?
  rw [List.find?_eq_none.mpr]
  · rfl
  · intro p hp
    have := List.any_eq_false.mp h p hp
    simpa using this

theorem dictInsert_of_not_mem {k : String} {v : RecordingTask}
    {l : List (String × RecordingTask)} (h : dictMem k l = false) :
    dictInsert k v l = l ++ [(k, v)] := by
  unfold dictInsert
  rw [if_neg (by simp [h])]

theorem keys_dictInsert_of_mem {k : String} {v : RecordingTask}
    {l : List (String × RecordingTask)} (h : dictMem k l = true) :
    (dictInsert k v l).map Prod.fst = l.map Prod.fst := by
  unfold dictInsert
  rw [if_pos h, List.map_map]
  refine List.map_congr_left ?_
  intro p _
  by_cases hpk : p.1 = k
  · simp [hpk]
  · simp [hpk]

theorem dictGet?_dictInsert_self (k : String) (v : RecordingTask)
    (l : List (String × RecordingTask)) :
    dictGet? k (dictInsert k v l) = some v := by
  by_cases hm : dictMem k l
  · unfold dictInsert
    rw [if_pos hm]
    unfold dictMem at hm
    induction l with
    | nil => simp at hm
    | cons p l ih =>
      by_cases hpk : p.1 = k
      · have hrep : (if (p.1 == k) = true then (k, v) else p) = (k, v) := by
          simp [hpk]
        simp only [List.map_cons, hrep]
        unfold dictGet?
        rw [List.find?_cons_of_pos _ (by simp)]
        rfl
      · have hm' : (l.any fun q => q.1 == k) = true := by
          rcases List.any_eq_true.mp hm with ⟨q, hq, hqk⟩
          rcases List.mem_cons.mp hq with rfl | hq'
          · exact absurd (by simpa using hqk) hpk
          · exact List.any_eq_true.mpr ⟨q, hq', hqk⟩
        have hrep : (if (p.1 == k) = true then (k, v) else p) = p := by
          simp [hpk]
        have htail := ih hm'
        simp only [List.map_cons, hrep]
        unfold dictGet? at htail ⊢
        rw [List.find?_cons_of_neg _ (by simp [hpk])]
        exact htail
  · have hmf : dictMem k l = false := by simpa using hm
    rw [dictInsert_of_not_mem hmf]
    unfold dictGet?
    rw [List.find?_append, List.find?_eq_none.mpr]
    · simp [List.find?_cons]
    · intro p hp
      have hany : (l.any fun q => q.1 == k) = false := hmf
      have := List.any_eq_false.mp hany p hp
      simpa using this

theorem dictGet?_mem {k : String} {t : RecordingTask}
    {l : List (String × RecordingTask)} (h : dictGet? k l = some t) :
    (k, t) ∈ l := by
  unfold dictGet? at h
  rcases Option.map_eq_some'.mp h with ⟨p, hfind, hsnd⟩
  have hk := List.find?_some hfind
  have hmem := List.mem_of_find?_eq_some hfind
  rcases p with ⟨a, b⟩
  have ha : a = k := by simpa using hk
  have hb : b = t := by simpa using hsnd
  rw [← ha, ← hb]
  exact hmem

theorem not_mem_keys_of_dictMem_false {k : String}
    {l : List (String × RecordingTask)} (h : dictMem k l = false) :
    k ∉ l.map Prod.fst := by
  intro hk
  rcases List.mem_map.mp hk with ⟨p, hp, hfst⟩
  have := List.any_eq_false.mp h p hp
  simp [hfst] at this

theorem nodup_keys_dictInsert {k : String} {v : RecordingTask}
    {l : List (String × RecordingTask)}
    (h : (l.map Prod.fst).Nodup) :
    ((dictInsert k v l).map Prod.fst).Nodup := by
  by_cases hm : dictMem k l
  · rwa [keys_dictInsert_of_mem hm]
  · have hmf : dictMem k l = false := by simpa using hm
    rw [dictInsert_of_not_mem hmf, List.map_append]
    simp only [List.map_cons, List.map_nil]
    rw [List.nodup_append]
    refine ⟨h, List.nodup_singleton _, ?_⟩
    intro a ha hb
    rcases List.mem_singleton.mp hb with rfl
    exact not_mem_keys_of_dictMem_false hmf ha


/-! ## Registry well-formedness: entries keyed by their own task id,
keys unique -/

/-- Every entry of the registry is stored at its record's derived task
id, and no id occurs twice. -/
def WfRegistry (l : List (String × RecordingTask)) : Prop :=
  (∀ p ∈ l, p.1 = p.2.task_id) ∧ (l.map Prod.fst).Nodup

theorem wf_dictInsert {k : String} {v : RecordingTask}
    {l : List (String × RecordingTask)}
    (h : WfRegistry l) (hk : k = v.task_id) :
    WfRegistry (dictInsert k v l) := by
  constructor
  · intro p hp
    rcases mem_dictInsert hp with hp' | rfl
    · exact h.1 p hp'
    · exact hk
  · exact nodup_keys_dictInsert h.2

theorem update_task_status_of_none {now tid : String} {st : TaskStatus}
    {em : Option String} {vr : Option (List (String × String))}
    {m : CheckpointManager} (hg : dictGet? tid m.tasks = none) :
    update_task_status now tid st em vr m = (m, false) := by
  unfold update_task_status
  rw [hg]

theorem update_task_status_of_some {now tid : String} {st : TaskStatus}
    {em : Option String} {vr : Option (List (String × String))}
    {m : CheckpointManager} {task : RecordingTask}
    (hg : dictGet? tid m.tasks = some task) :
    update_task_status now tid st em vr m =
      (⟨dictInsert tid
        { task with
          status := st
          timestamp := now
          error_message :=
            if truthyStr em then em else task.error_message
          validation_result :=
            if truthyDict vr then vr else task.validation_result }
        m.tasks⟩, true) := by
  unfold update_task_status
  rw [hg]

theorem wf_applyOp {m : CheckpointManager} (h : WfRegistry m.tasks)
    (op : Op) : WfRegistry (applyOp m op).tasks := by
  cases op with
  | register now s v f o =>
    exact wf_dictInsert h rfl
  | update now tid st em vr =>
    have ha : applyOp m (Op.update now tid st em vr)
        = (update_task_status now tid st em vr m).1 := rfl
    cases hg : dictGet? tid m.tasks with
    | none =>
      rw [ha, update_task_status_of_none hg]
      exact h
    | some task =>
      rw [ha, update_task_status_of_some hg]
      exact wf_dictInsert h (h.1 _ (dictGet?_mem hg))
  | reset =>
    unfold applyOp reset_failed_tasks
    constructor
    · intro p hp
      rcases List.mem_map.mp hp with ⟨q, hq, hfq⟩
      have hq1 := h.1 q hq
      by_cases hf : q.2.status = TaskStatus.failed
      · rw [if_pos hf] at hfq
        rw [← hfq]
        exact hq1
      · rw [if_neg hf] at hfq
        rw [← hfq]
        exact hq1
    · have hkeys :
          ((m.tasks.map (fun p =>
            if p.2.status = TaskStatus.failed then
              (p.1,
                { p.2 with
                  status := TaskStatus.pending
                  error_message := none })
            else p)).map Prod.fst) = m.tasks.map Prod.fst := by
        rw [List.map_map]
        refine List.map_congr_left ?_
        intro p _
        by_cases hf : p.2.status = TaskStatus.failed
        · simp [hf]
        · simp [hf]
      rw [hkeys]
      exact h.2

theorem wf_foldl :
    ∀ (ops : List Op) (m : CheckpointManager), WfRegistry m.tasks →
      WfRegistry ((ops.foldl applyOp m).tasks)
  | [], _, hm => hm
  | op :: ops, m, hm => wf_foldl ops _ (wf_applyOp hm op)

theorem wf_runOps (ops : List Op) : WfRegistry (runOps ops).tasks :=
  wf_foldl ops ⟨[]⟩ ⟨fun p hp => absurd hp (List.not_mem_nil p), List.nodup_nil⟩

/-! ## The error-message field across operation sequences (C9) -/

/-- `true` when the operation is not an update carrying a truthy
(non-empty) `error_message` argument. -/
def updateHasNoError : Op → Bool
  | .update _ _ _ em _ => !truthyStr em
  | _ => true

theorem noerr_applyOp {m : CheckpointManager}
    (h : ∀ p ∈ m.tasks, p.2.error_message = none) {op : Op}
    (hop : updateHasNoError op = true) :
    ∀ p ∈ (applyOp m op).tasks, p.2.error_message = none := by
  cases op with
  | register now s v f o =>
    intro p hp
    rcases mem_dictInsert hp with hp' | rfl
    · exact h p hp'
    · rfl
  | update now tid st em vr =>
    have hem : truthyStr em = false := by
      have h1 := hop
      simp only [updateHasNoError] at h1
      simpa using h1
    have ha : applyOp m (Op.update now tid st em vr)
        = (update_task_status now tid st em vr m).1 := rfl
    intro p hp
    rw [ha] at hp
    cases hg : dictGet? tid m.tasks with
    | none =>
      rw [update_task_status_of_none hg] at hp
      exact h p hp
    | some task =>
      rw [update_task_status_of_some hg] at hp
      rcases mem_dictInsert hp with hp' | rfl
      · exact h p hp'
      · show (if truthyStr em = true then em else task.error_message) = none
        rw [if_neg (by simp [hem])]
        exact h _ (dictGet?_mem hg)
  | reset =>
    intro p hp
    rcases List.mem_map.mp hp with ⟨q, hq, hfq⟩
    by_cases hf : q.2.status = TaskStatus.failed
    · rw [if_pos hf] at hfq
      rw [← hfq]
    · rw [if_neg hf] at hfq
      rw [← hfq]
      exact h q hq

theorem noerr_foldl :
    ∀ (ops : List Op) (m : CheckpointManager),
      (∀ p ∈ m.tasks, p.2.error_message = none) →
      (∀ op ∈ ops, updateHasNoError op = true) →
      ∀ p ∈ ((ops.foldl applyOp m).tasks), p.2.error_message = none
  | [], _, hm, _ => hm
  | op :: ops, m, hm, hops =>
    noerr_foldl ops _
      (noerr_applyOp hm (hops op (List.mem_cons_self op ops)))
      (fun o ho => hops o (List.mem_cons_of_mem op ho))

/-! ## Round-trip lemmas for the checkpoint file (C8) -/

theorem ofValue?_value (st : TaskStatus) :
    TaskStatus.ofValue? st.value = some st := by
  cases st <;> rfl

theorem parseTask_rawOfTask (now : String) (t : RecordingTask) :
    parseTask now (rawOfTask t) = some t := by
  cases t with
  | mk s mn sf op st ts em vr =>
    unfold parseTask rawOfTask
    simp only [ofValue?_value]
    rfl

theorem dictMem_iff_mem_keys (k : String)
    (l : List (String × RecordingTask)) :
    dictMem k l = true ↔ k ∈ l.map Prod.fst := by
  unfold dictMem
  rw [List.any_eq_true]
  constructor
  · rintro ⟨p, hp, hpk⟩
    exact List.mem_map.mpr ⟨p, hp, by simpa using hpk⟩
  · intro hk
    rcases List.mem_map.mp hk with ⟨p, hp, hfst⟩
    exact ⟨p, hp, by simp [hfst]⟩

theorem loadTasksLoop_saved :
    ∀ (now : String) (l acc : List (String × RecordingTask)),
      (∀ p ∈ l, p.1 = p.2.task_id) →
      ((acc ++ l).map Prod.fst).Nodup →
      loadTasksLoop now (l.map fun p => rawOfTask p.2) acc = (acc ++ l, true) := by
  intro now l
  induction l with
  | nil =>
    intro acc _ _
    simp [loadTasksLoop]
  | cons p l ih =>
    intro acc hk hnd
    rcases p with ⟨k, t⟩
    have hkt : k = t.task_id := hk (k, t) (List.mem_cons_self _ _)
    have hknotin : t.task_id ∉ acc.map Prod.fst := by
      rw [← hkt]
      rw [List.map_append] at hnd
      rcases List.nodup_append.mp hnd with ⟨_, _, hdisj⟩
      intro hin
      exact hdisj hin (by simp)
    have hmemf : dictMem t.task_id acc = false := by
      rcases h : dictMem t.task_id acc with _ | _
      · rfl
      · exact absurd ((dictMem_iff_mem_keys _ _).mp h) hknotin
    simp only [List.map_cons, loadTasksLoop, parseTask_rawOfTask]
    rw [dictInsert_of_not_mem hmemf, ← hkt]
    have hres := ih (acc ++ [(k, t)])
      (fun q hq => hk q (List.mem_cons_of_mem _ hq))
      (by rw [List.append_assoc]; simpa using hnd)
    rw [hres, List.append_assoc]
    simp

/-! ## The partial-load behavior of `load_checkpoint` (C6) -/

theorem loadTasksLoop_flag :
    ∀ (now : String) (raws : List RawTaskData)
      (acc : List (String × RecordingTask)),
      (loadTasksLoop now raws acc).2 =
        raws.all (fun r => (parseTask now r).isSome) := by
  intro now raws
  induction raws with
  | nil =>
    intro acc
    simp [loadTasksLoop]
  | cons r rs ih =>
    intro acc
    cases hr : parseTask now r with
    | none => simp [loadTasksLoop, hr]
    | some t => simp [loadTasksLoop, hr, ih]

theorem loadTasksLoop_prefix :
    ∀ (now : String) (raws : List RawTaskData)
      (acc : List (String × RecordingTask)),
      (loadTasksLoop now raws acc).1 =
        (loadTasksLoop now
          (raws.takeWhile (fun r => (parseTask now r).isSome)) acc).1 := by
  intro now raws
  induction raws with
  | nil =>
    intro acc
    rfl
  | cons r rs ih =>
    intro acc
    cases hr : parseTask now r with
    | none => simp [loadTasksLoop, List.takeWhile_cons, hr]
    | some t => simp [loadTasksLoop, List.takeWhile_cons, hr, ih]

/-! ## Lemmas about the atomic save sequence (C1) -/

theorem runSteps_target_of_no_replace :
    ∀ (steps : List SaveStep) (fs : FS),
      SaveStep.replaceTarget ∉ steps →
      (runSteps fs steps).target = fs.target := by
  intro steps
  induction steps with
  | nil =>
    intro fs _
    rfl
  | cons s steps ih =>
    intro fs h
    have hs : s ≠ SaveStep.replaceTarget :=
      fun he => h (he ▸ List.mem_cons_self _ _)
    have htail : SaveStep.replaceTarget ∉ steps :=
      fun ht => h (List.mem_cons_of_mem _ ht)
    show (runSteps (applyStep fs s) steps).target = fs.target
    rw [ih _ htail]
    cases s with
    | openTemp => rfl
    | writeTempByte b => rfl
    | replaceTarget => exact absurd rfl hs

theorem runSteps_writeTempBytes :
    ∀ (content : List Nat) (fs : FS) (acc : List Nat),
      fs.temp = some acc →
      (runSteps fs (content.map SaveStep.writeTempByte)).temp
          = some (acc ++ content) ∧
        (runSteps fs (content.map SaveStep.writeTempByte)).target = fs.target := by
  intro content
  induction content with
  | nil =>
    intro fs acc h
    simpa [runSteps] using h
  | cons b content ih =>
    intro fs acc h
    have hstep : (applyStep fs (SaveStep.writeTempByte b)).temp
        = some (acc ++ [b]) := by
      show (fs.temp.map fun l => l ++ [b]) = some (acc ++ [b])
      rw [h]
      rfl
    have := ih (applyStep fs (SaveStep.writeTempByte b)) (acc ++ [b]) hstep
    refine ⟨?_, ?_⟩
    · show (runSteps (applyStep fs (SaveStep.writeTempByte b))
        (content.map SaveStep.writeTempByte)).temp = some (acc ++ b :: content)
      rw [this.1]
      simp
    · show (runSteps (applyStep fs (SaveStep.writeTempByte b))
        (content.map SaveStep.writeTempByte)).target = fs.target
      rw [this.2]
      rfl

theorem no_replace_in_writes (content : List Nat) :
    SaveStep.replaceTarget ∉
      SaveStep.openTemp :: content.map SaveStep.writeTempByte := by
  intro h
  rcases List.mem_cons.mp h with h' | h'
  · cases h'
  · rcases List.mem_map.mp h' with ⟨b, _, hb⟩
    cases hb

theorem runSteps_saveSteps_target (content : List Nat) (fs : FS) :
    (runSteps fs (saveSteps content)).target = some content := by
  unfold saveSteps runSteps
  rw [List.foldl_append]
  have h1 : ((SaveStep.openTemp :: content.map SaveStep.writeTempByte).foldl
      applyStep fs).temp = some content := by
    rw [List.foldl_cons]
    have := runSteps_writeTempBytes content (applyStep fs SaveStep.openTemp) [] rfl
    exact this.1
  show (applyStep _ SaveStep.replaceTarget).target = some content
  rw [show ∀ g : FS, (applyStep g SaveStep.replaceTarget).target = g.temp
      from fun g => rfl]
  exact h1

theorem saveSteps_take_target (content : List Nat) (fs : FS) (k : Nat)
    (hk : k < (saveSteps content).length) :
    (runSteps fs ((saveSteps content).take k)).target = fs.target := by
  have hlen : (saveSteps content).length = content.length + 2 := by
    simp [saveSteps]
  have hkle : k ≤ (SaveStep.openTemp ::
      content.map SaveStep.writeTempByte).length := by
    simp only [List.length_cons, List.length_map]
    omega
  have htake : (saveSteps content).take k =
      (SaveStep.openTemp :: content.map SaveStep.writeTempByte).take k := by
    unfold saveSteps
    rw [List.take_append_eq_append_take,
      Nat.sub_eq_zero_of_le hkle, List.take_zero, List.append_nil]
  rw [htake]
  refine runSteps_target_of_no_replace _ _ ?_
  intro hin
  exact no_replace_in_writes content (List.mem_of_mem_take hin)

/-! ## Shape of the task identifier (C4) -/

theorem md5Bytes_length (msg : List Nat) : (md5Bytes msg).length = 16 := by
  unfold md5Bytes wordBytes
  simp

theorem flatten_map_byteHexChars_length :
    ∀ bs : List Nat, ((bs.map byteHexChars).flatten).length = 2 * bs.length
  | [] => rfl
  | b :: bs => by
    simp only [List.map_cons, List.flatten_cons, List.length_append,
      List.length_cons, flatten_map_byteHexChars_length bs, byteHexChars,
      List.length_nil]
    ring

theorem md5HexCharsOf_length (s : String) : (md5HexCharsOf s).length = 32 := by
  unfold md5HexCharsOf
  rw [flatten_map_byteHexChars_length, md5Bytes_length]

theorem taskIdChars_length (s v f : String) : (taskIdChars s v f).length = 12 := by
  unfold taskIdChars
  rw [List.length_take, md5HexCharsOf_length]
  decide

theorem getD_hexChars_mem (n : Nat) : hexChars.getD n '0' ∈ hexChars := by
  by_cases h : n < 16
  · exact (show ∀ m < 16, hexChars.getD m '0' ∈ hexChars by decide) n h
  · have h16 : hexChars.length = 16 := by decide
    rw [List.getD_eq_getElem?_getD,
      List.getElem?_eq_none (by rw [h16]; exact Nat.le_of_not_lt h)]
    decide

theorem mem_byteHexChars {b : Nat} {c : Char} (h : c ∈ byteHexChars b) :
    c ∈ hexChars := by
  unfold byteHexChars at h
  rcases List.mem_cons.mp h with rfl | h'
  · exact getD_hexChars_mem _
  · rcases List.mem_cons.mp h' with rfl | h''
    · exact getD_hexChars_mem _
    · cases h''

theorem mem_md5HexCharsOf {s : String} {c : Char}
    (h : c ∈ md5HexCharsOf s) : c ∈ hexChars := by
  unfold md5HexCharsOf at h
  rcases List.mem_flatten.mp h with ⟨l, hl, hc⟩
  rcases List.mem_map.mp hl with ⟨b, _, rfl⟩
  exact mem_byteHexChars hc

/-! ## Claim theorems -/

/-- Claim C1: in the save sequence modelled as "write complete content
to a temporary file, then atomically replace the target", an
interruption at any point before the final replace step leaves the
target path holding the previous checkpoint unchanged; at every prefix
of the sequence a reader observes either the old full content or the
new full content, never a truncated one; and the completed sequence
leaves the new content at the target. -/
theorem c1_atomic_write (content : List Nat) (fs : FS) (k : Nat)
    (hk : k < (saveSteps content).length) :
    (runSteps fs ((saveSteps content).take k)).target = fs.target ∧
    (runSteps fs (saveSteps content)).target = some content ∧
    ∀ j : Nat,
      (runSteps fs ((saveSteps content).take j)).target = fs.target ∨
      (runSteps fs ((saveSteps content).take j)).target = some content := by
  refine ⟨saveSteps_take_target content fs k hk,
    runSteps_saveSteps_target content fs, ?_⟩
  intro j
  by_cases hj : j < (saveSteps content).length
  · exact Or.inl (saveSteps_take_target content fs j hj)
  · right
    rw [List.take_of_length_le (Nat.le_of_not_lt hj)]
    exact runSteps_saveSteps_target content fs

/-- Witness for C1 at a concrete save: previous checkpoint `[1]`,
new content `[7, 7]`, interruption after 2 of the 4 steps. -/
theorem c1_atomic_write_witness :
    2 < (saveSteps [7, 7]).length ∧
    (runSteps ⟨some [1], none⟩ ((saveSteps [7, 7]).take 2)).target
      = some [1] ∧
    (runSteps ⟨some [1], none⟩ (saveSteps [7, 7])).target = some [7, 7] :=
  ⟨by decide,
   (c1_atomic_write [7, 7] ⟨some [1], none⟩ 2 (by decide)).1,
   (c1_atomic_write [7, 7] ⟨some [1], none⟩ 2 (by decide)).2.1⟩

/-- Claim C2: `is_task_completed` holds exactly when a record stored at
the id recomputed from the composite key exists and has status
COMPLETED; in particular it is `false` (without error) when no record
exists, and `false` for any other status. -/
theorem c2_is_completed_iff (m : CheckpointManager)
    (speaker mode_name source_filename : String) :
    is_task_completed m speaker mode_name source_filename = true ↔
      ∃ t, dictGet? (taskIdOf speaker mode_name source_filename) m.tasks
          = some t ∧ t.status = TaskStatus.completed := by
  unfold is_task_completed
  cases hg : dictGet? (taskIdOf speaker mode_name source_filename) m.tasks with
  | none => simp
  | some t => simp

/-- Counterexample to claim C3 as stated: the composite keys
`("a|b", "c", "d")` and `("a", "b|c", "d")` are different, yet they
yield the same task id with certainty (not merely with birthday-bound
probability), because the `|`-joined key strings coincide. -/
theorem c3_counterexample :
    ("a|b", "c", "d") ≠ (("a", "b|c", "d") : String × String × String) ∧
    taskIdOf "a|b" "c" "d" = taskIdOf "a" "b|c" "d" := by
  constructor
  · decide
  · unfold taskIdOf taskIdChars
    rw [show taskString "a|b" "c" "d" = taskString "a" "b|c" "d" by decide]

/-- Claim C3 as amended: identical composite keys always yield the same
task id, and the id is a function of the `|`-joined string
`subject|variant|source_filename` alone — so distinct keys whose joined
strings coincide (possible when components contain `|`) collide with
certainty, while keys with distinct joined strings collide only when
the underlying 48-bit truncated hash does. -/
theorem c3_id_from_joined_string (s1 v1 f1 s2 v2 f2 : String) :
    (s1 = s2 → v1 = v2 → f1 = f2 →
      taskIdOf s1 v1 f1 = taskIdOf s2 v2 f2) ∧
    (taskString s1 v1 f1 = taskString s2 v2 f2 →
      taskIdOf s1 v1 f1 = taskIdOf s2 v2 f2) := by
  constructor
  · rintro rfl rfl rfl
    rfl
  · intro h
    unfold taskIdOf taskIdChars
    rw [h]

/-- Witness for the amended C3 at concrete keys with an embedded
delimiter. -/
theorem c3_id_from_joined_string_witness :
    taskString "a|b" "c" "d" = taskString "a" "b|c" "d" ∧
    taskIdOf "a|b" "c" "d" = taskIdOf "a" "b|c" "d" :=
  ⟨by decide,
   (c3_id_from_joined_string "a|b" "c" "d" "a" "b|c" "d").2 (by decide)⟩

/-- Claim C4: the task identity is a pure function of exactly
(speaker, mode_name, source_filename): records agreeing on those three
fields have equal ids whatever their `output_path`; the id is always 12
characters, all lowercase hexadecimal; and it equals the identity
recomputed from the three fields alone (total on all strings, empty
ones included). -/
theorem c4_task_id_contract (t u : RecordingTask)
    (hs : t.speaker = u.speaker) (hm : t.mode_name = u.mode_name)
    (hf : t.source_filename = u.source_filename) :
    t.task_id = u.task_id ∧
    (taskIdChars t.speaker t.mode_name t.source_filename).length = 12 ∧
    (∀ c ∈ taskIdChars t.speaker t.mode_name t.source_filename,
      c ∈ hexChars) ∧
    t.task_id = taskIdOf t.speaker t.mode_name t.source_filename := by
  refine ⟨?_, taskIdChars_length _ _ _, ?_, rfl⟩
  · unfold RecordingTask.task_id
    rw [hs, hm, hf]
  · intro c hc
    exact mem_md5HexCharsOf (List.mem_of_mem_take hc)

/-- Witness for C4: two records with empty composite-key components
differing only in `output_path` share a task id of 12 hex
characters. -/
theorem c4_task_id_contract_witness :
    (mkTask "t" "" "" "" "out1").task_id
      = (mkTask "t" "" "" "" "out2").task_id ∧
    (taskIdChars "" "" "").length = 12 :=
  ⟨(c4_task_id_contract (mkTask "t" "" "" "" "out1")
      (mkTask "t" "" "" "" "out2") rfl rfl rfl).1,
   (c4_task_id_contract (mkTask "t" "" "" "" "out1")
      (mkTask "t" "" "" "" "out2") rfl rfl rfl).2.1⟩

/-- Counterexample to claim C5 as stated: with the save I/O failing
(`saveOk = false`), `update_task_status` on an existing task logs the
error (second flag `true`) yet still reports success (`true`) to its
caller instead of the claimed failure. -/
theorem c5_counterexample :
    (update_task_status_saving false "t1" (taskIdOf "a" "b" "c")
        TaskStatus.completed none none
        (runOps [Op.register "t0" "a" "b" "c" "o"])).2.2 = true ∧
    (update_task_status_saving false "t1" (taskIdOf "a" "b" "c")
        TaskStatus.completed none none
        (runOps [Op.register "t0" "a" "b" "c" "o"])).2.1 = true := by
  constructor
  · decide
  · decide

/-- Claim C5 as amended: a failed save is logged to the error stream,
and `save_checkpoint` itself returns `false`, but none of the mutating
operations propagates the failure: `register_task` still returns the
task id, `update_task_status` still returns `true` whenever the task
exists, and `reset_failed_tasks` still returns the reset count,
whatever the save outcome. -/
theorem c5_save_failure_not_propagated (saveOk : Bool)
    (now tid s v f o : String) (st : TaskStatus) (em : Option String)
    (vr : Option (List (String × String))) (m : CheckpointManager) :
    ((save_checkpoint saveOk).1 = saveOk ∧
      (save_checkpoint saveOk).2 = !saveOk) ∧
    ((register_task_saving saveOk now s v f o m).2.1 = taskIdOf s v f ∧
      (register_task_saving saveOk now s v f o m).2.2 = !saveOk) ∧
    ((dictGet? tid m.tasks).isSome = true →
      (update_task_status_saving saveOk now tid st em vr m).2.1 = true ∧
      (update_task_status_saving saveOk now tid st em vr m).2.2 = !saveOk) ∧
    ((reset_failed_tasks_saving saveOk m).2.1 = (reset_failed_tasks m).2 ∧
      (0 < (reset_failed_tasks m).2 →
        (reset_failed_tasks_saving saveOk m).2.2 = !saveOk)) := by
  refine ⟨⟨rfl, rfl⟩, ⟨rfl, rfl⟩, ?_, ⟨rfl, ?_⟩⟩
  · intro h
    unfold update_task_status_saving
    cases hg : dictGet? tid m.tasks with
    | none =>
      rw [hg] at h
      simp at h
    | some task =>
      exact ⟨rfl, rfl⟩
  · intro h
    show (if (reset_failed_tasks m).2 > 0
        then (save_checkpoint saveOk).2 else false) = !saveOk
    rw [if_pos h]
    rfl

/-- Witness for the amended C5 at a concrete registry with a failing
save. -/
theorem c5_save_failure_not_propagated_witness :
    (dictGet? (taskIdOf "a" "b" "c")
      (runOps [Op.register "t0" "a" "b" "c" "o"]).tasks).isSome = true ∧
    (update_task_status_saving false "t1" (taskIdOf "a" "b" "c")
      TaskStatus.failed (some "e") none
      (runOps [Op.register "t0" "a" "b" "c" "o"])).2.1 = true :=
  ⟨by decide,
   ((c5_save_failure_not_propagated false "t1" (taskIdOf "a" "b" "c")
      "a" "b" "c" "o" TaskStatus.failed (some "e") none
      (runOps [Op.register "t0" "a" "b" "c" "o"])).2.2.1 (by decide)).1⟩

/-- Counterexample to claim C6 as stated: loading a checkpoint whose
second task entry is malformed (missing `speaker`) takes the warning
path, yet the record parsed before the malformed entry remains in the
registry — the registry is not empty. -/
theorem c6_counterexample :
    (load_checkpoint "now" [goodRaw, badRaw]).2 = false ∧
    (load_checkpoint "now" [goodRaw, badRaw]).1.tasks ≠ [] := by
  constructor
  · decide
  · decide

/-- Claim C6 as amended: loading a malformed checkpoint takes the
warning path (the success flag is `false` exactly when some entry fails
to parse) and does not stop the caller, but the registry proceeds with
exactly the records parsed before the first malformed entry — empty
only when the malformation precedes every complete record. -/
theorem c6_partial_load (now : String) (raws : List RawTaskData) :
    (load_checkpoint now raws).2
        = raws.all (fun r => (parseTask now r).isSome) ∧
    (load_checkpoint now raws).1.tasks =
      (load_checkpoint now
        (raws.takeWhile (fun r => (parseTask now r).isSome))).1.tasks := by
  constructor
  · exact loadTasksLoop_flag now raws []
  · exact loadTasksLoop_prefix now raws []

/-- Claim C7: every reachable registry holds at most one record per
task id (its key list is duplicate-free, before and after a further
registration), and registering a composite key whose id is already
present replaces the record with a fresh PENDING one — the lookup at
the id after `register_task` yields exactly the new record, whose
`error_message` and `validation_result` are absent. -/
theorem c7_registry_unique_ids (ops : List Op) (now s v f o : String) :
    ((runOps ops).tasks.map Prod.fst).Nodup ∧
    ((register_task now s v f o (runOps ops)).1.tasks.map Prod.fst).Nodup ∧
    (register_task now s v f o (runOps ops)).2 = taskIdOf s v f ∧
    dictGet? (taskIdOf s v f)
        (register_task now s v f o (runOps ops)).1.tasks
      = some (mkTask now s v f o) := by
  have wf := wf_runOps ops
  exact ⟨wf.2, nodup_keys_dictInsert wf.2, rfl,
    dictGet?_dictInsert_self _ _ _⟩

/-- Claim C8: saving any reachable registry and reloading the saved
task array yields the same registry — the same records, in the same
order, with identical field values (statuses, error messages and
validation results included) — and the load reports success. -/
theorem c8_save_load_roundtrip (ops : List Op) (now2 : String) :
    load_checkpoint now2 (saveTasks (runOps ops)) = (runOps ops, true) := by
  have wf := wf_runOps ops
  have h := loadTasksLoop_saved now2 (runOps ops).tasks []
    wf.1 (by simpa using wf.2)
  unfold load_checkpoint saveTasks
  rw [h]
  simp

/-- Counterexample to claim C9 as stated: after registering a task,
failing it with an error message, and then completing it without one,
the registry holds a record whose `error_message` is present while its
status is COMPLETED, not FAILED. -/
theorem c9_counterexample :
    ∃ p ∈ (runOps c9ops).tasks,
      p.2.error_message ≠ none ∧ p.2.status ≠ TaskStatus.failed := by
  decide

/-- Claim C9 as amended: a record's `error_message` can be non-absent
only because some `update_task_status` call supplied a non-empty
`error_message` argument — in every state reachable by operation
sequences whose updates all pass an absent or empty error message,
every record's `error_message` is absent.  (The source neither
restricts a supplied error message to FAILED transitions nor clears it
on later transitions, so a non-FAILED record may carry one.) -/
theorem c9_error_only_from_updates (ops : List Op)
    (h : ∀ op ∈ ops, updateHasNoError op = true) :
    ∀ p ∈ (runOps ops).tasks, p.2.error_message = none :=
  noerr_foldl ops ⟨[]⟩ (fun p hp => absurd hp (List.not_mem_nil p)) h

/-- Witness for the amended C9 at a concrete error-free operation
sequence. -/
theorem c9_error_only_from_updates_witness :
    c9wops.all updateHasNoError = true ∧
    ((runOps c9wops).tasks.all
      (fun p => p.2.error_message == none)) = true := by
  refine ⟨by decide, ?_⟩
  have h := c9_error_only_from_updates c9wops
    (fun op hop => List.all_eq_true.mp (by decide) op hop)
  exact List.all_eq_true.mpr (fun p hp => by simpa using h p hp)

/-- Claim C10: for an existing task id and arbitrary (possibly mixed)
arguments, `update_task_status` treats each optional payload field
independently: the stored `error_message` is unchanged when the
`error_message` argument is falsy (absent or the empty string) and
overwritten exactly when it is non-empty, and likewise the stored
`validation_result` is unchanged when the `validation_result` argument
is falsy (absent or the empty mapping) and overwritten exactly when it
is non-empty — whatever the other argument is. -/
theorem c10_falsy_update_args_preserved (now tid : String)
    (st : TaskStatus) (m : CheckpointManager) (t : RecordingTask)
    (em : Option String) (vr : Option (List (String × String)))
    (h : dictGet? tid m.tasks = some t) :
    dictGet? tid (update_task_status now tid st em vr m).1.tasks
      = some { t with
          status := st
          timestamp := now
          error_message :=
            if em = none ∨ em = some "" then t.error_message else em
          validation_result :=
            if vr = none ∨ vr = some [] then t.validation_result else vr } := by
  have hem : (if truthyStr em = true then em else t.error_message)
      = if em = none ∨ em = some "" then t.error_message else em := by
    rcases em with _ | sm
    · simp [truthyStr]
    · by_cases hs : sm = ""
      · subst hs
        simp [truthyStr]
      · simp [truthyStr, hs]
  have hvr : (if truthyDict vr = true then vr else t.validation_result)
      = if vr = none ∨ vr = some [] then t.validation_result else vr := by
    rcases vr with _ | l
    · simp [truthyDict]
    · by_cases hl : l = []
      · subst hl
        simp [truthyDict]
      · simp [truthyDict, hl]
  rw [update_task_status_of_some h]
  dsimp only
  rw [dictGet?_dictInsert_self, hem, hvr]

/-- Witness for C10 at a concrete registry holding a record with both
payload fields set, exercising the two mixed calls: a non-empty
`error_message` with an absent `validation_result` (the `fail` command
shape) overwrites only the error message and preserves the stored
validation result; an absent `error_message` with a non-empty
`validation_result` preserves the stored error message and overwrites
only the validation result. -/
theorem c10_falsy_update_args_preserved_witness :
    dictGet? (taskIdOf "a" "b" "c")
        (update_task_status "t1" (taskIdOf "a" "b" "c")
          TaskStatus.failed (some "y") none c10state).1.tasks
      = some { c10task with
          status := TaskStatus.failed
          timestamp := "t1"
          error_message := some "y"
          validation_result := some [("k", "v")] } ∧
    dictGet? (taskIdOf "a" "b" "c")
        (update_task_status "t1" (taskIdOf "a" "b" "c")
          TaskStatus.completed none (some [("p", "q")])
          c10state).1.tasks
      = some { c10task with
          status := TaskStatus.completed
          timestamp := "t1"
          error_message := some "x"
          validation_result := some [("p", "q")] } := by
  have h1 := c10_falsy_update_args_preserved "t1" (taskIdOf "a" "b" "c")
    TaskStatus.failed c10state c10task (some "y") none (by decide)
  have h2 := c10_falsy_update_args_preserved "t1" (taskIdOf "a" "b" "c")
    TaskStatus.completed c10state c10task none (some [("p", "q")]) (by decide)
  constructor
  · rw [h1]
    decide
  · rw [h2]
    decide
